import Mathlib

/-!
Verification of the health-state tracking and notification-scheduling engine
of `monitor.py` (DhyanNS/Resource_Monitor).

The embedding is shallow and executable:

* Python dicts are modelled as ordered association lists (`List (key × value)`),
  with `dictGet` mirroring `dict.get` (first matching key) and `dictSet`
  mirroring `d[k] = v` (overwrite in place, else append at the end).
* A node row (`rows.append({...})` in `run_checks_once`) is the structure
  `Row`; only the fields the engine reads (`name`, `is_issue`) plus the
  pass-through fields `ip` and `role` are kept.  The display-only fields
  (`ping`, `ssh`, `last_seen`, `uptime`) carry no logic and are omitted.
* The transition-detection loop of `main` (monitor.py lines 179-198) is
  `processRow` / `processRows` / `detectTransitions`.
* `load_state` / `save_state` (lines 76-96) are `load_state`, with the
  outcome of reading+parsing the JSON state file abstracted as an
  `Option RawState` input (`none` = file missing or unparseable) and the
  `save_state(default)` call recorded in a `persistedDefault` flag.
* The notification section of `main` (lines 200-234) is `notificationStep`,
  built from `afterRecoveryState` (recovery alert's reset of the reminder
  date), `summaryRule` and `reminderRule`; `send_group_alerts`
  (lines 151-162) is `sendGroupAlerts`, producing the list of emails with
  the subject, the per-group payload, the `issues` count handed to
  `build_report_html`, and the recipients.
-/

set_option autoImplicit false

universe u

/-- `dict.get k`: the value at the first occurrence of key `k`, if any. -/
def dictGet {α : Type u} (m : List (String × α)) (k : String) : Option α :=
  match m with
  | [] => none
  | (k1, v) :: rest => if k1 = k then some v else dictGet rest k

/-- `d[k] = v`: overwrite the first occurrence of `k` in place, else append. -/
def dictSet {α : Type u} (m : List (String × α)) (k : String) (v : α) :
    List (String × α) :=
  match m with
  | [] => [(k, v)]
  | (k1, v1) :: rest =>
      if k1 = k then (k, v) :: rest else (k1, v1) :: dictSet rest k v

/-- One entry of a group's `rows` list as assembled by `run_checks_once`
(monitor.py lines 130-139); display-only fields omitted. -/
structure Row where
  name : String
  ip : String
  role : String
  is_issue : Bool
deriving DecidableEq, Repr

/-- `{"rows": ..., "issues": ...}`: a group's result or alert entry. -/
structure GroupEntry where
  rows : List Row
  issues : Nat
deriving DecidableEq, Repr

/-- A dict from group name to `GroupEntry`: the shape of `results`,
`down_now`, `recovered_now` and `issues_only`. -/
abbrev GroupMap := List (String × GroupEntry)

/-- The per-node state dict `state["node_state"]`. -/
abbrev NodeState := List (String × Bool)

/-- `key = f"{group}:{r['name']}"` (monitor.py line 181). -/
def nodeKey (g n : String) : String :=
  g ++ ":" ++ n

/-- `entry = m.setdefault(g, {"rows": [], "issues": 0})` read-back. -/
def getEntry (m : GroupMap) (g : String) : GroupEntry :=
  (dictGet m g).getD ⟨[], 0⟩

/-- `down_now.setdefault(g, ...); rows.append(r); issues += 1`
(monitor.py lines 190-192). -/
def downAdd (m : GroupMap) (g : String) (r : Row) : GroupMap :=
  let e := getEntry m g
  dictSet m g ⟨e.rows ++ [r], e.issues + 1⟩

/-- `recovered_now.setdefault(g, ...); rows.append(r)` — note the `issues`
field is left at its `setdefault` value (monitor.py lines 195-196). -/
def recoveredAdd (m : GroupMap) (g : String) (r : Row) : GroupMap :=
  let e := getEntry m g
  dictSet m g ⟨e.rows ++ [r], e.issues⟩

/-- The mutable triple threaded through the detection loop of `main`:
`state["node_state"]`, `down_now`, `recovered_now`. -/
structure DetectState where
  nodeState : NodeState
  downNow : GroupMap
  recoveredNow : GroupMap
deriving DecidableEq, Repr

/-- One iteration of the detection loop body (monitor.py lines 181-198):
look up `prev`, classify, and overwrite `node_state[key]` with `curr`. -/
def processRow (g : String) (s : DetectState) (r : Row) : DetectState :=
  match dictGet s.nodeState (nodeKey g r.name) with
  | none =>
      { s with nodeState := dictSet s.nodeState (nodeKey g r.name) r.is_issue }
  | some prev =>
      { nodeState := dictSet s.nodeState (nodeKey g r.name) r.is_issue,
        downNow := if prev = false ∧ r.is_issue = true then
          downAdd s.downNow g r else s.downNow,
        recoveredNow := if prev = true ∧ r.is_issue = false then
          recoveredAdd s.recoveredNow g r else s.recoveredNow }

/-- `for r in data["rows"]` (monitor.py line 180). -/
def processRows (g : String) (s : DetectState) (rows : List Row) : DetectState :=
  rows.foldl (processRow g) s

/-- `for group, data in results.items()` (monitor.py lines 179-198), starting
from the loaded node-state dict and empty `down_now` / `recovered_now`. -/
def detectTransitions (results : GroupMap) (ns : NodeState) : DetectState :=
  results.foldl (fun s p => processRows p.1 s p.2.rows)
    { nodeState := ns, downNow := [], recoveredNow := [] }

/-- All `(group, row)` observations of a run, in processing order. -/
def obsList (results : GroupMap) : List (String × Row) :=
  results.foldr (fun p acc => p.2.rows.map (fun r => (p.1, r)) ++ acc) []

/-- The durable state object (monitor.py lines 77-81). -/
structure PersistedState where
  node_state : NodeState
  last_daily_summary : String
  last_daily_reminder : String
deriving DecidableEq, Repr

/-- The `default` dict of `load_state`. -/
def defaultState : PersistedState :=
  { node_state := [], last_daily_summary := "", last_daily_reminder := "" }

/-- The parsed JSON state file before `setdefault` back-filling: each
top-level field may be missing. -/
structure RawState where
  node_state : Option NodeState
  last_daily_summary : Option String
  last_daily_reminder : Option String
deriving DecidableEq, Repr

/-- Outcome of `load_state`: the returned state, plus whether
`save_state(default)` was executed. -/
structure LoadResult where
  state : PersistedState
  persistedDefault : Bool
deriving DecidableEq, Repr

/-- `load_state` (monitor.py lines 76-93).  The input abstracts reading and
JSON-parsing the state file: `none` when the file does not exist or its
contents fail to parse (the `except` path), `some raw` when parsing
succeeds.  On `some raw` each missing top-level field is back-filled via
`setdefault`; on `none` the default is saved and returned. -/
def load_state (file : Option RawState) : LoadResult :=
  match file with
  | some raw =>
      { state :=
          { node_state := raw.node_state.getD [],
            last_daily_summary := raw.last_daily_summary.getD "",
            last_daily_reminder := raw.last_daily_reminder.getD "" },
        persistedDefault := false }
  | none => { state := defaultState, persistedDefault := true }

/-- `DAILY_SUMMARY_HOUR = 0` (monitor.py line 32). -/
def DAILY_SUMMARY_HOUR : Nat := 0

/-- `DAILY_REMINDER_HOUR = 10` (monitor.py line 33). -/
def DAILY_REMINDER_HOUR : Nat := 10

/-- `GROUP_EMAIL_MAP` (monitor.py lines 42-63). -/
def GROUP_EMAIL_MAP : List (String × List String) :=
  [("RNC Cluster",
      ["dhyann@iisc.ac.in", "naveennayaka@iisc.ac.in", "shrinivasam@iisc.ac.in"]),
   ("DGX Servers",
      ["dhyann@iisc.ac.in", "naveennayaka@iisc.ac.in", "shrinivasam@iisc.ac.in"]),
   ("License Servers",
      ["dhyann@iisc.ac.in", "akhileshku@iisc.ac.in", "shivaprasadl@iisc.ac.in"]),
   ("NIS Servers",
      ["dhyann@iisc.ac.in", "shivaprasadl@iisc.ac.in", "manjulap@iisc.ac.in"])]

/-- One `send_email(subject, html, recipients)` call made by
`send_group_alerts`: `issuesShown` is the `data["issues"]` argument passed
to `build_report_html` (monitor.py line 161). -/
structure Email where
  subject : String
  payload : GroupMap
  issuesShown : Nat
  recipients : List String
deriving DecidableEq, Repr

/-- `send_group_alerts(prefix, results)` (monitor.py lines 151-162): one
email per group, skipping groups with no rows and groups whose recipient
list is absent or empty (`if not recipients: continue`). -/
def sendGroupAlerts (tag : String) (results : GroupMap) : List Email :=
  results.filterMap fun p =>
    if p.2.rows = [] then none
    else
      match dictGet GROUP_EMAIL_MAP p.1 with
      | none => none
      | some recips =>
          if recips = [] then none
          else some
            { subject := tag ++ " [" ++ p.1 ++ "]",
              payload := [(p.1, p.2)],
              issuesShown := p.2.issues,
              recipients := recips }

/-- The `issues_only` dict comprehension of the daily-reminder rule
(monitor.py lines 225-229). -/
def issuesOnly (results : GroupMap) : GroupMap :=
  (results.filter (fun p => 0 < p.2.issues)).map
    (fun p => (p.1, ⟨p.2.rows.filter (fun r => r.is_issue), p.2.issues⟩))

/-- The recovery alert's state effect (monitor.py line 209): if
`recovered_now` is non-empty, `state["last_daily_reminder"] = ""`. -/
def afterRecoveryState (recovered : GroupMap) (s : PersistedState) :
    PersistedState :=
  if recovered = [] then s else { s with last_daily_reminder := "" }

/-- The daily-summary rule (monitor.py lines 212-217): returns whether the
summary was sent and the updated state. -/
def summaryRule (hour : Nat) (today : String) (s : PersistedState) :
    Bool × PersistedState :=
  if hour = DAILY_SUMMARY_HOUR ∧ s.last_daily_summary ≠ today then
    (true, { s with last_daily_summary := today })
  else (false, s)

/-- Outcome of the daily-reminder rule. -/
structure ReminderOut where
  sent : Bool
  payload : GroupMap
  emails : List Email
  state : PersistedState
deriving DecidableEq, Repr

/-- The daily-reminder rule (monitor.py lines 219-232). -/
def reminderRule (overall hour : Nat) (today : String) (results : GroupMap)
    (s : PersistedState) : ReminderOut :=
  if 0 < overall ∧ hour = DAILY_REMINDER_HOUR ∧ s.last_daily_reminder ≠ today then
    let pay := issuesOnly results
    { sent := true,
      payload := pay,
      emails := sendGroupAlerts "⚠️ DAILY REMINDER – ISSUE NOT RESOLVED" pay,
      state := { s with last_daily_reminder := today } }
  else
    { sent := false, payload := [], emails := [], state := s }

/-- Outcome of the notification section of `main`. -/
structure NotifyOutcome where
  downEmails : List Email
  recoveryEmails : List Email
  summarySent : Bool
  reminderSent : Bool
  reminderEmails : List Email
  finalState : PersistedState
deriving DecidableEq, Repr

/-- The notification section of `main` (monitor.py lines 200-232), applied
after transition detection: immediate down alert, immediate recovery alert
(with its reminder-date reset), daily summary, daily reminder. -/
def notificationStep (down recovered results : GroupMap) (overall hour : Nat)
    (today : String) (s : PersistedState) : NotifyOutcome :=
  let downEmails :=
    if down = [] then [] else sendGroupAlerts "🚨 IMMEDIATE ALERT – NODE DOWN" down
  let recoveryEmails :=
    if recovered = [] then []
    else sendGroupAlerts "✅ RECOVERY ALERT – NODE BACK ONLINE" recovered
  let s1 := afterRecoveryState recovered s
  let sumOut := summaryRule hour today s1
  let remOut := reminderRule overall hour today results sumOut.2
  { downEmails := downEmails,
    recoveryEmails := recoveryEmails,
    summarySent := sumOut.1,
    reminderSent := remOut.sent,
    reminderEmails := remOut.emails,
    finalState := remOut.state }

/-- Per-run inputs to the two date-gated daily rules (monitor.py
lines 212-232). -/
structure DailyInput where
  results : GroupMap
  overall_issues : Nat
  hour : Nat
deriving Repr

/-- One invocation of the two daily rules (monitor.py lines 212-232):
summary first, then reminder, on the given run's inputs. -/
def dailyRules (inp : DailyInput) (today : String) (s : PersistedState) :
    (Bool × Bool) × PersistedState :=
  let sumOut := summaryRule inp.hour today s
  let remOut := reminderRule inp.overall_issues inp.hour today inp.results sumOut.2
  ((sumOut.1, remOut.sent), remOut.state)

/-- Iterate the daily rules over a sequence of runs sharing one calendar
date, counting how many summaries and reminders are sent. -/
def runDaily (today : String) (inputs : List DailyInput) (s : PersistedState) :
    (Nat × Nat) × PersistedState :=
  match inputs with
  | [] => ((0, 0), s)
  | inp :: rest =>
      let step := dailyRules inp today s
      let tail := runDaily today rest step.2
      (((if step.1.1 then 1 else 0) + tail.1.1,
        (if step.1.2 then 1 else 0) + tail.1.2), tail.2)

theorem dictGet_dictSet_self {α : Type u} (m : List (String × α)) (k : String)
    (v : α) : dictGet (dictSet m k v) k = some v := by
  induction m with
  | nil => simp [dictGet, dictSet]
  | cons p rest ih =>
      obtain ⟨k1, v1⟩ := p
      by_cases h : k1 = k
      · simp [dictGet, dictSet, h]
      · simp [dictGet, dictSet, h, ih]

theorem dictGet_dictSet_ne {α : Type u} (m : List (String × α)) (k k1 : String)
    (v : α) (h : k ≠ k1) : dictGet (dictSet m k v) k1 = dictGet m k1 := by
  induction m with
  | nil => simp [dictGet, dictSet, h]
  | cons p rest ih =>
      obtain ⟨k2, v2⟩ := p
      by_cases h2 : k2 = k
      · subst h2
        simp [dictGet, dictSet, h]
      · simp [dictGet, dictSet, h2, ih]

theorem dictGet_dictSet_isSome {α : Type u} (m : List (String × α))
    (k k1 : String) (v : α) (h : (dictGet m k1).isSome) :
    (dictGet (dictSet m k v) k1).isSome := by
  by_cases hk : k = k1
  · subst hk
    simp [dictGet_dictSet_self]
  · rw [dictGet_dictSet_ne m k k1 v hk]
    exact h

theorem dictSet_eq_of_get {α : Type u} (m : List (String × α)) (k : String)
    (v : α) (h : dictGet m k = some v) : dictSet m k v = m := by
  induction m with
  | nil => simp [dictGet] at h
  | cons p rest ih =>
      obtain ⟨k1, v1⟩ := p
      by_cases h1 : k1 = k
      · subst h1
        simp [dictGet] at h
        simp [dictSet, h]
      · simp [dictGet, h1] at h
        simp [dictSet, h1, ih h]

theorem mem_dictSet {α : Type u} (m : List (String × α)) (k : String) (v : α)
    (p : String × α) (h : p ∈ dictSet m k v) : p ∈ m ∨ p = (k, v) := by
  induction m with
  | nil =>
      simp [dictSet] at h
      exact Or.inr h
  | cons q rest ih =>
      obtain ⟨k1, v1⟩ := q
      by_cases h1 : k1 = k
      · simp [dictSet, h1] at h
        rcases h with h | h
        · exact Or.inr h
        · exact Or.inl (List.mem_cons_of_mem _ h)
      · simp [dictSet, h1] at h
        rcases h with h | h
        · exact Or.inl (by simp [h])
        · rcases ih h with h2 | h2
          · exact Or.inl (List.mem_cons_of_mem _ h2)
          · exact Or.inr h2

theorem dictGet_mem {α : Type u} (m : List (String × α)) (k : String) (v : α)
    (h : dictGet m k = some v) : (k, v) ∈ m := by
  induction m with
  | nil => simp [dictGet] at h
  | cons q rest ih =>
      obtain ⟨k1, v1⟩ := q
      by_cases h1 : k1 = k
      · subst h1
        simp [dictGet] at h
        simp [h]
      · simp [dictGet, h1] at h
        exact List.mem_cons_of_mem _ (ih h)

theorem processRow_nodeState (g : String) (s : DetectState) (r : Row) :
    (processRow g s r).nodeState = dictSet s.nodeState (nodeKey g r.name) r.is_issue := by
  cases h : dictGet s.nodeState (nodeKey g r.name) <;> simp [processRow, h]

theorem processRow_get_self (g : String) (s : DetectState) (r : Row) :
    dictGet (processRow g s r).nodeState (nodeKey g r.name) = some r.is_issue := by
  rw [processRow_nodeState]
  exact dictGet_dictSet_self _ _ _

theorem processRow_get_ne (g : String) (s : DetectState) (r : Row) (k : String)
    (h : nodeKey g r.name ≠ k) :
    dictGet (processRow g s r).nodeState k = dictGet s.nodeState k := by
  rw [processRow_nodeState]
  exact dictGet_dictSet_ne _ _ _ _ h

theorem processRow_fixed (g : String) (s : DetectState) (r : Row)
    (h : dictGet s.nodeState (nodeKey g r.name) = some r.is_issue) :
    processRow g s r = s := by
  have hd : ¬ (r.is_issue = false ∧ r.is_issue = true) := by
    cases hc : r.is_issue <;> simp [hc]
  have hr : ¬ (r.is_issue = true ∧ r.is_issue = false) := by
    cases hc : r.is_issue <;> simp [hc]
  simp [processRow, h, if_neg hd, if_neg hr, dictSet_eq_of_get _ _ _ h]

theorem getEntry_downAdd (m : GroupMap) (g : String) (r : Row) :
    getEntry (downAdd m g r) g
      = ⟨(getEntry m g).rows ++ [r], (getEntry m g).issues + 1⟩ := by
  simp [downAdd, getEntry, dictGet_dictSet_self]

theorem getEntry_recoveredAdd (m : GroupMap) (g : String) (r : Row) :
    getEntry (recoveredAdd m g r) g
      = ⟨(getEntry m g).rows ++ [r], (getEntry m g).issues⟩ := by
  simp [recoveredAdd, getEntry, dictGet_dictSet_self]

/-- C1: for a node row whose key is already present in the node-state map,
the detector classifies exactly by the pair `(prev, current)`:
`(false, true)` appends the row to its group's `downNow` entry,
`(true, false)` appends it to its group's `recoveredNow` entry, and equal
`prev`/`current` touch neither map. -/
theorem transition_classification (g : String) (s : DetectState) (r : Row)
    (prev : Bool) (h : dictGet s.nodeState (nodeKey g r.name) = some prev) :
    (prev = false → r.is_issue = true →
        (processRow g s r).downNow = downAdd s.downNow g r
      ∧ (processRow g s r).recoveredNow = s.recoveredNow
      ∧ r ∈ (getEntry (processRow g s r).downNow g).rows)
  ∧ (prev = true → r.is_issue = false →
        (processRow g s r).recoveredNow = recoveredAdd s.recoveredNow g r
      ∧ (processRow g s r).downNow = s.downNow
      ∧ r ∈ (getEntry (processRow g s r).recoveredNow g).rows)
  ∧ (prev = r.is_issue →
        (processRow g s r).downNow = s.downNow
      ∧ (processRow g s r).recoveredNow = s.recoveredNow) := by
  refine ⟨?_, ?_, ?_⟩
  · intro hp hc
    subst hp
    have hdown : (processRow g s r).downNow = downAdd s.downNow g r := by
      simp [processRow, h, hc]
    refine ⟨hdown, by simp [processRow, h, hc], ?_⟩
    rw [hdown, getEntry_downAdd]
    simp
  · intro hp hc
    subst hp
    have hrec : (processRow g s r).recoveredNow = recoveredAdd s.recoveredNow g r := by
      simp [processRow, h, hc]
    refine ⟨hrec, by simp [processRow, h, hc], ?_⟩
    rw [hrec, getEntry_recoveredAdd]
    simp
  · intro hp
    subst hp
    have hd : ¬ (r.is_issue = false ∧ r.is_issue = true) := by
      cases hc : r.is_issue <;> simp [hc]
    have hr : ¬ (r.is_issue = true ∧ r.is_issue = false) := by
      cases hc : r.is_issue <;> simp [hc]
    constructor <;> simp [processRow, h, hd, hr]

theorem transition_classification_witness :
    dictGet ([("G:n", false)] : NodeState) (nodeKey "G" "n") = some false
  ∧ (⟨"n", "i", "default", true⟩ : Row) ∈
      (getEntry (processRow "G" ⟨[("G:n", false)], [], []⟩
        ⟨"n", "i", "default", true⟩).downNow "G").rows :=
  ⟨by decide,
   ((transition_classification "G" ⟨[("G:n", false)], [], []⟩
      ⟨"n", "i", "default", true⟩ false (by decide)).1 rfl rfl).2.2⟩

/-- C2: for a node row whose key is absent from the node-state map at
lookup time, the detector records `nodeState[key] = currentIsIssue` and adds
the row to neither `downNow` nor `recoveredNow`, whatever the value of
`currentIsIssue`. -/
theorem first_observation_never_alerts (g : String) (s : DetectState) (r : Row)
    (h : dictGet s.nodeState (nodeKey g r.name) = none) :
    (processRow g s r).nodeState = dictSet s.nodeState (nodeKey g r.name) r.is_issue
  ∧ dictGet (processRow g s r).nodeState (nodeKey g r.name) = some r.is_issue
  ∧ (processRow g s r).downNow = s.downNow
  ∧ (processRow g s r).recoveredNow = s.recoveredNow := by
  refine ⟨?_, ?_, ?_, ?_⟩ <;> simp [processRow, h, dictGet_dictSet_self]

theorem first_observation_never_alerts_witness :
    dictGet ([] : NodeState) (nodeKey "G" "n") = none
  ∧ (processRow "G" ⟨[], [], []⟩ ⟨"n", "i", "default", true⟩).downNow = []
  ∧ (processRow "G" ⟨[], [], []⟩ ⟨"n", "i", "default", true⟩).recoveredNow = [] :=
  ⟨rfl,
   (first_observation_never_alerts "G" ⟨[], [], []⟩
      ⟨"n", "i", "default", true⟩ rfl).2.2.1,
   (first_observation_never_alerts "G" ⟨[], [], []⟩
      ⟨"n", "i", "default", true⟩ rfl).2.2.2⟩

/-- C8: `load_state` returns the default state and persists it when the
file is missing or unparseable, and back-fills each missing top-level field
with its default when the file parses. -/
theorem load_state_defaults :
    load_state none = { state := defaultState, persistedDefault := true }
  ∧ (∀ raw : RawState,
        (load_state (some raw)).persistedDefault = false
      ∧ (raw.node_state = none →
          (load_state (some raw)).state.node_state = defaultState.node_state)
      ∧ (∀ m, raw.node_state = some m →
          (load_state (some raw)).state.node_state = m)
      ∧ (raw.last_daily_summary = none →
          (load_state (some raw)).state.last_daily_summary
            = defaultState.last_daily_summary)
      ∧ (∀ d, raw.last_daily_summary = some d →
          (load_state (some raw)).state.last_daily_summary = d)
      ∧ (raw.last_daily_reminder = none →
          (load_state (some raw)).state.last_daily_reminder
            = defaultState.last_daily_reminder)
      ∧ (∀ d, raw.last_daily_reminder = some d →
          (load_state (some raw)).state.last_daily_reminder = d)) := by
  refine ⟨rfl, fun raw => ⟨rfl, ?_, ?_, ?_, ?_, ?_, ?_⟩⟩
  · intro h
    simp [load_state, h, defaultState]
  · intro m h
    simp [load_state, h]
  · intro h
    simp [load_state, h, defaultState]
  · intro d h
    simp [load_state, h]
  · intro h
    simp [load_state, h, defaultState]
  · intro d h
    simp [load_state, h]

theorem load_state_defaults_witness :
    load_state none = { state := defaultState, persistedDefault := true }
  ∧ (load_state (some ⟨none, some "2025-01-01", none⟩)).state.node_state
      = defaultState.node_state
  ∧ (load_state (some ⟨none, some "2025-01-01", none⟩)).state.last_daily_summary
      = "2025-01-01" :=
  ⟨load_state_defaults.1,
   (load_state_defaults.2 ⟨none, some "2025-01-01", none⟩).2.1 rfl,
   (load_state_defaults.2 ⟨none, some "2025-01-01", none⟩).2.2.2.2.1
      "2025-01-01" rfl⟩

/-- C10: two rows of one group with equal names share the key
`"group:name"`; when the group's rows are exactly a healthy row followed by
an impaired row with the same name and the key is absent beforehand, the
later row is classified newly-down on its first appearance and the shared
key ends up holding the last row's `is_issue` value. -/
theorem shared_key_same_run (g n ip1 role1 ip2 role2 : String) (ns : NodeState)
    (h : dictGet ns (nodeKey g n) = none) :
    (detectTransitions
        [(g, ⟨[⟨n, ip1, role1, false⟩, ⟨n, ip2, role2, true⟩], 1⟩)] ns).downNow
      = [(g, ⟨[⟨n, ip2, role2, true⟩], 1⟩)]
  ∧ (detectTransitions
        [(g, ⟨[⟨n, ip1, role1, false⟩, ⟨n, ip2, role2, true⟩], 1⟩)] ns).recoveredNow
      = []
  ∧ dictGet (detectTransitions
        [(g, ⟨[⟨n, ip1, role1, false⟩, ⟨n, ip2, role2, true⟩], 1⟩)] ns).nodeState
        (nodeKey g n)
      = some true := by
  have e1 : processRow g ⟨ns, [], []⟩ ⟨n, ip1, role1, false⟩
      = ⟨dictSet ns (nodeKey g n) false, [], []⟩ := by
    simp [processRow, h]
  have hget : dictGet (dictSet ns (nodeKey g n) false) (nodeKey g n) = some false :=
    dictGet_dictSet_self _ _ _
  have e2 : processRow g ⟨dictSet ns (nodeKey g n) false, [], []⟩
        ⟨n, ip2, role2, true⟩
      = ⟨dictSet (dictSet ns (nodeKey g n) false) (nodeKey g n) true,
         [(g, ⟨[⟨n, ip2, role2, true⟩], 1⟩)], []⟩ := by
    simp [processRow, hget, downAdd, getEntry, dictGet, dictSet]
  have efull : detectTransitions
        [(g, ⟨[⟨n, ip1, role1, false⟩, ⟨n, ip2, role2, true⟩], 1⟩)] ns
      = ⟨dictSet (dictSet ns (nodeKey g n) false) (nodeKey g n) true,
         [(g, ⟨[⟨n, ip2, role2, true⟩], 1⟩)], []⟩ := by
    show processRow g (processRow g ⟨ns, [], []⟩ ⟨n, ip1, role1, false⟩)
        ⟨n, ip2, role2, true⟩ = _
    rw [e1, e2]
  refine ⟨by rw [efull], by rw [efull], ?_⟩
  rw [efull]
  exact dictGet_dictSet_self _ _ _

theorem shared_key_same_run_witness :
    dictGet ([] : NodeState) (nodeKey "G" "") = none
  ∧ (detectTransitions
        [("G", ⟨[⟨"", "i1", "login", false⟩, ⟨"", "i2", "gpu", true⟩], 1⟩)] []).downNow
      = [("G", ⟨[⟨"", "i2", "gpu", true⟩], 1⟩)]
  ∧ dictGet (detectTransitions
        [("G", ⟨[⟨"", "i1", "login", false⟩, ⟨"", "i2", "gpu", true⟩], 1⟩)] []).nodeState
        (nodeKey "G" "")
      = some true :=
  ⟨rfl,
   (shared_key_same_run "G" "" "i1" "login" "i2" "gpu" [] rfl).1,
   (shared_key_same_run "G" "" "i1" "login" "i2" "gpu" [] rfl).2.2⟩

/-- C5: the daily reminder fires exactly when `overallIssueCount > 0`, the
hour equals `DAILY_REMINDER_HOUR`, and the stored reminder date differs
from today; when it fires, the payload handed to `send_group_alerts` is
`issues_only` — precisely the groups with a positive issue count, each
restricted to its rows with `is_issue` set — and the reminder date is set
to today. -/
theorem reminder_rule_spec (overall hour : Nat) (today : String)
    (results : GroupMap) (s : PersistedState) :
    ((reminderRule overall hour today results s).sent = true ↔
        (0 < overall ∧ hour = DAILY_REMINDER_HOUR ∧ s.last_daily_reminder ≠ today))
  ∧ ((reminderRule overall hour today results s).sent = true →
        (reminderRule overall hour today results s).payload = issuesOnly results
      ∧ (reminderRule overall hour today results s).emails
          = sendGroupAlerts "⚠️ DAILY REMINDER – ISSUE NOT RESOLVED" (issuesOnly results)
      ∧ (reminderRule overall hour today results s).state.last_daily_reminder = today)
  ∧ (∀ gname e, (gname, e) ∈ issuesOnly results ↔
        ∃ e0, (gname, e0) ∈ results ∧ 0 < e0.issues
          ∧ e = ⟨e0.rows.filter (fun r => r.is_issue), e0.issues⟩) := by
  by_cases hc : 0 < overall ∧ hour = DAILY_REMINDER_HOUR ∧ s.last_daily_reminder ≠ today
  · refine ⟨by simp [reminderRule, hc], ?_, ?_⟩
    · intro _
      refine ⟨by simp [reminderRule, hc], by simp [reminderRule, hc],
        by simp [reminderRule, hc]⟩
    · intro gname e
      constructor
      · intro hmem
        simp only [issuesOnly, List.mem_map, List.mem_filter] at hmem
        obtain ⟨p, ⟨hp, hpos⟩, heq⟩ := hmem
        refine ⟨p.2, ?_, by simpa using hpos, ?_⟩
        · have h1 : p.1 = gname := congrArg Prod.fst heq
          rw [← h1]
          exact hp
        · have h2 := congrArg Prod.snd heq
          simp at h2
          exact h2.symm
      · rintro ⟨e0, hmem, hpos, rfl⟩
        simp only [issuesOnly, List.mem_map, List.mem_filter]
        exact ⟨(gname, e0), ⟨hmem, by simpa using hpos⟩, rfl⟩
  · refine ⟨by simp [reminderRule, hc, -ne_eq], ?_, ?_⟩
    · intro hsent
      have : (reminderRule overall hour today results s).sent = false := by
        simp [reminderRule, hc]
      rw [this] at hsent
      cases hsent
    · intro gname e
      constructor
      · intro hmem
        simp only [issuesOnly, List.mem_map, List.mem_filter] at hmem
        obtain ⟨p, ⟨hp, hpos⟩, heq⟩ := hmem
        refine ⟨p.2, ?_, by simpa using hpos, ?_⟩
        · have h1 : p.1 = gname := congrArg Prod.fst heq
          rw [← h1]
          exact hp
        · have h2 := congrArg Prod.snd heq
          simp at h2
          exact h2.symm
      · rintro ⟨e0, hmem, hpos, rfl⟩
        simp only [issuesOnly, List.mem_map, List.mem_filter]
        exact ⟨(gname, e0), ⟨hmem, by simpa using hpos⟩, rfl⟩

theorem reminder_rule_spec_witness :
    (reminderRule 1 10 "2026-10-12"
        [("G", ⟨[⟨"a", "i", "default", true⟩, ⟨"b", "j", "default", false⟩], 1⟩)]
        ⟨[], "", ""⟩).sent = true
  ∧ (reminderRule 1 10 "2026-10-12"
        [("G", ⟨[⟨"a", "i", "default", true⟩, ⟨"b", "j", "default", false⟩], 1⟩)]
        ⟨[], "", ""⟩).payload
      = issuesOnly
        [("G", ⟨[⟨"a", "i", "default", true⟩, ⟨"b", "j", "default", false⟩], 1⟩)] :=
  ⟨(reminder_rule_spec 1 10 "2026-10-12"
      [("G", ⟨[⟨"a", "i", "default", true⟩, ⟨"b", "j", "default", false⟩], 1⟩)]
      ⟨[], "", ""⟩).1.mpr (by decide),
   ((reminder_rule_spec 1 10 "2026-10-12"
      [("G", ⟨[⟨"a", "i", "default", true⟩, ⟨"b", "j", "default", false⟩], 1⟩)]
      ⟨[], "", ""⟩).2.1
      ((reminder_rule_spec 1 10 "2026-10-12"
        [("G", ⟨[⟨"a", "i", "default", true⟩, ⟨"b", "j", "default", false⟩], 1⟩)]
        ⟨[], "", ""⟩).1.mpr (by decide))).1⟩

theorem summaryRule_keeps_reminder (hour : Nat) (today : String)
    (s : PersistedState) :
    (summaryRule hour today s).2.last_daily_reminder = s.last_daily_reminder := by
  by_cases hc : hour = DAILY_SUMMARY_HOUR ∧ s.last_daily_summary ≠ today <;>
    simp [summaryRule, hc]

theorem reminderRule_keeps_summary (overall hour : Nat) (today : String)
    (results : GroupMap) (s : PersistedState) :
    (reminderRule overall hour today results s).state.last_daily_summary
      = s.last_daily_summary := by
  by_cases hc : 0 < overall ∧ hour = DAILY_REMINDER_HOUR ∧
      s.last_daily_reminder ≠ today <;>
    simp [reminderRule, hc]

/-- C4: whenever `recoveredNow` is non-empty the recovery rule blanks
`last_daily_reminder`, and this happens before the reminder gate is
evaluated in the same run; so with issues outstanding at the reminder hour
(today being a non-empty date string), the reminder fires in that very run,
whatever the loaded reminder date was. -/
theorem recovery_rearms_reminder (down recovered results : GroupMap)
    (overall : Nat) (today : String) (s : PersistedState)
    (hrec : recovered ≠ []) (hover : 0 < overall) (htoday : today ≠ "") :
    (afterRecoveryState recovered s).last_daily_reminder = ""
  ∧ (notificationStep down recovered results overall DAILY_REMINDER_HOUR
      today s).reminderSent = true
  ∧ (notificationStep down recovered results overall DAILY_REMINDER_HOUR
      today s).finalState.last_daily_reminder = today := by
  have h1 : (afterRecoveryState recovered s).last_daily_reminder = "" := by
    simp [afterRecoveryState, hrec]
  have h2 : (summaryRule DAILY_REMINDER_HOUR today
      (afterRecoveryState recovered s)).2.last_daily_reminder = "" := by
    rw [summaryRule_keeps_reminder]
    exact h1
  have hgate : 0 < overall ∧ DAILY_REMINDER_HOUR = DAILY_REMINDER_HOUR ∧
      (summaryRule DAILY_REMINDER_HOUR today
        (afterRecoveryState recovered s)).2.last_daily_reminder ≠ today := by
    refine ⟨hover, rfl, ?_⟩
    rw [h2]
    intro he
    exact htoday he.symm
  refine ⟨h1, ?_, ?_⟩ <;>
    simp [notificationStep, reminderRule, hgate]

theorem recovery_rearms_reminder_witness :
    (afterRecoveryState [("RNC Cluster", ⟨[⟨"a", "i", "default", false⟩], 0⟩)]
        ⟨[], "", "2026-10-12"⟩).last_daily_reminder = ""
  ∧ (notificationStep [] [("RNC Cluster", ⟨[⟨"a", "i", "default", false⟩], 0⟩)]
        [("RNC Cluster", ⟨[⟨"b", "j", "default", true⟩], 1⟩)] 1
        DAILY_REMINDER_HOUR "2026-10-12"
        ⟨[], "", "2026-10-12"⟩).reminderSent = true
  ∧ (notificationStep [] [("RNC Cluster", ⟨[⟨"a", "i", "default", false⟩], 0⟩)]
        [("RNC Cluster", ⟨[⟨"b", "j", "default", true⟩], 1⟩)] 1
        DAILY_REMINDER_HOUR "2026-10-12"
        ⟨[], "", "2026-10-12"⟩).finalState.last_daily_reminder = "2026-10-12" :=
  recovery_rearms_reminder []
    [("RNC Cluster", ⟨[⟨"a", "i", "default", false⟩], 0⟩)]
    [("RNC Cluster", ⟨[⟨"b", "j", "default", true⟩], 1⟩)] 1 "2026-10-12"
    ⟨[], "", "2026-10-12"⟩ (by decide) (by decide) (by decide)

theorem runDaily_summary_zero (today : String) (inputs : List DailyInput) :
    ∀ s : PersistedState, s.last_daily_summary = today →
    (runDaily today inputs s).1.1 = 0 := by
  induction inputs with
  | nil =>
      intro s _
      simp [runDaily]
  | cons inp rest ih =>
      intro s h
      have hc : ¬ (inp.hour = DAILY_SUMMARY_HOUR ∧ s.last_daily_summary ≠ today) := by
        simp [h]
      have hsum : summaryRule inp.hour today s = (false, s) := by
        unfold summaryRule
        rw [if_neg hc]
      have h2 : (reminderRule inp.overall_issues inp.hour today inp.results
          s).state.last_daily_summary = today := by
        rw [reminderRule_keeps_summary]
        exact h
      have htail := ih (reminderRule inp.overall_issues inp.hour today
        inp.results s).state h2
      simp only [runDaily, dailyRules, hsum]
      simpa using htail

theorem runDaily_reminder_zero (today : String) (inputs : List DailyInput) :
    ∀ s : PersistedState, s.last_daily_reminder = today →
    (runDaily today inputs s).1.2 = 0 := by
  induction inputs with
  | nil =>
      intro s _
      simp [runDaily]
  | cons inp rest ih =>
      intro s h
      have h1 : (summaryRule inp.hour today s).2.last_daily_reminder = today := by
        rw [summaryRule_keeps_reminder]
        exact h
      have hc : ¬ (0 < inp.overall_issues ∧ inp.hour = DAILY_REMINDER_HOUR ∧
          (summaryRule inp.hour today s).2.last_daily_reminder ≠ today) := by
        simp [h1]
      have hrem : reminderRule inp.overall_issues inp.hour today inp.results
          (summaryRule inp.hour today s).2
          = ⟨false, [], [], (summaryRule inp.hour today s).2⟩ := by
        unfold reminderRule
        rw [if_neg hc]
      have htail := ih (summaryRule inp.hour today s).2 h1
      simp only [runDaily, dailyRules, hrem]
      simpa using htail

theorem runDaily_summary_le_one (today : String) (inputs : List DailyInput) :
    ∀ s : PersistedState, (runDaily today inputs s).1.1 ≤ 1 := by
  induction inputs with
  | nil =>
      intro s
      simp [runDaily]
  | cons inp rest ih =>
      intro s
      by_cases hc : inp.hour = DAILY_SUMMARY_HOUR ∧ s.last_daily_summary ≠ today
      · have hsum : summaryRule inp.hour today s
            = (true, { s with last_daily_summary := today }) := by
          unfold summaryRule
          rw [if_pos hc]
        have h0 : (runDaily today rest
            (reminderRule inp.overall_issues inp.hour today inp.results
              { s with last_daily_summary := today }).state).1.1 = 0 := by
          apply runDaily_summary_zero
          rw [reminderRule_keeps_summary]
        simp only [runDaily, dailyRules, hsum]
        simpa using h0
      · have hsum : summaryRule inp.hour today s = (false, s) := by
          unfold summaryRule
          rw [if_neg hc]
        have htail := ih (reminderRule inp.overall_issues inp.hour today
          inp.results s).state
        simp only [runDaily, dailyRules, hsum]
        simpa using htail

theorem runDaily_reminder_le_one (today : String) (inputs : List DailyInput) :
    ∀ s : PersistedState, (runDaily today inputs s).1.2 ≤ 1 := by
  induction inputs with
  | nil =>
      intro s
      simp [runDaily]
  | cons inp rest ih =>
      intro s
      by_cases hc : 0 < inp.overall_issues ∧ inp.hour = DAILY_REMINDER_HOUR ∧
          (summaryRule inp.hour today s).2.last_daily_reminder ≠ today
      · have hrem : reminderRule inp.overall_issues inp.hour today inp.results
            (summaryRule inp.hour today s).2
            = ⟨true, issuesOnly inp.results,
               sendGroupAlerts "⚠️ DAILY REMINDER – ISSUE NOT RESOLVED"
                 (issuesOnly inp.results),
               { (summaryRule inp.hour today s).2 with
                  last_daily_reminder := today }⟩ := by
          unfold reminderRule
          rw [if_pos hc]
        have h0 : (runDaily today rest
            { (summaryRule inp.hour today s).2 with
               last_daily_reminder := today }).1.2 = 0 :=
          runDaily_reminder_zero today rest _ rfl
        simp only [runDaily, dailyRules, hrem]
        simpa using h0
      · have hrem : reminderRule inp.overall_issues inp.hour today inp.results
            (summaryRule inp.hour today s).2
            = ⟨false, [], [], (summaryRule inp.hour today s).2⟩ := by
          unfold reminderRule
          rw [if_neg hc]
        have htail := ih (summaryRule inp.hour today s).2
        simp only [runDaily, dailyRules, hrem]
        simpa using htail

/-- C3: over any sequence of invocations of the two date-gated daily rules
sharing one calendar date, at most one daily summary and at most one daily
reminder are sent, because each rule compares its stored last-sent date
with today before sending and stores today after sending. -/
theorem at_most_once_per_day (today : String) (inputs : List DailyInput)
    (s : PersistedState) :
    (runDaily today inputs s).1.1 ≤ 1 ∧ (runDaily today inputs s).1.2 ≤ 1 :=
  ⟨runDaily_summary_le_one today inputs s, runDaily_reminder_le_one today inputs s⟩

theorem processRow_issues_inv (g : String) (s : DetectState) (r : Row)
    (hdown : ∀ p ∈ s.downNow, (p : String × GroupEntry).2.issues = p.2.rows.length)
    (hrec : ∀ p ∈ s.recoveredNow, (p : String × GroupEntry).2.issues = 0) :
    (∀ p ∈ (processRow g s r).downNow,
        (p : String × GroupEntry).2.issues = p.2.rows.length)
  ∧ (∀ p ∈ (processRow g s r).recoveredNow,
        (p : String × GroupEntry).2.issues = 0) := by
  have hde : (getEntry s.downNow g).issues = (getEntry s.downNow g).rows.length := by
    cases hge : dictGet s.downNow g with
    | none => simp [getEntry, hge]
    | some e =>
        have := hdown (g, e) (dictGet_mem _ _ _ hge)
        simpa [getEntry, hge] using this
  have hre : (getEntry s.recoveredNow g).issues = 0 := by
    cases hge : dictGet s.recoveredNow g with
    | none => simp [getEntry, hge]
    | some e =>
        have := hrec (g, e) (dictGet_mem _ _ _ hge)
        simpa [getEntry, hge] using this
  cases hget : dictGet s.nodeState (nodeKey g r.name) with
  | none =>
      constructor
      · intro p hp
        simp only [processRow, hget] at hp
        exact hdown p hp
      · intro p hp
        simp only [processRow, hget] at hp
        exact hrec p hp
  | some prev =>
      constructor
      · intro p hp
        simp only [processRow, hget] at hp
        by_cases hcl : prev = false ∧ r.is_issue = true
        · rw [if_pos hcl] at hp
          rcases mem_dictSet _ _ _ _ hp with hin | heq
          · exact hdown p hin
          · subst heq
            simp [hde]
        · rw [if_neg hcl] at hp
          exact hdown p hp
      · intro p hp
        simp only [processRow, hget] at hp
        by_cases hcl : prev = true ∧ r.is_issue = false
        · rw [if_pos hcl] at hp
          rcases mem_dictSet _ _ _ _ hp with hin | heq
          · exact hrec p hin
          · subst heq
            simp [hre]
        · rw [if_neg hcl] at hp
          exact hrec p hp

theorem processRows_eq_foldl (g : String) (s : DetectState) (rows : List Row) :
    processRows g s rows
      = (rows.map (fun r => (g, r))).foldl (fun t q => processRow q.1 t q.2) s := by
  rw [List.foldl_map]
  rfl

theorem detectTransitions_eq_foldl (results : GroupMap) (ns : NodeState) :
    detectTransitions results ns
      = (obsList results).foldl (fun t q => processRow q.1 t q.2)
          ⟨ns, [], []⟩ := by
  suffices h : ∀ (rs : GroupMap) (s : DetectState),
      rs.foldl (fun t p => processRows p.1 t p.2.rows) s
        = (obsList rs).foldl (fun t q => processRow q.1 t q.2) s by
    exact h results _
  intro rs
  induction rs with
  | nil =>
      intro s
      simp [obsList]
  | cons p rest ih =>
      intro s
      have hobs : obsList (p :: rest)
          = p.2.rows.map (fun r => (p.1, r)) ++ obsList rest := rfl
      rw [List.foldl_cons, hobs, List.foldl_append, ← processRows_eq_foldl]
      exact ih _

theorem foldl_issues_inv (l : List (String × Row)) :
    ∀ s : DetectState,
    (∀ p ∈ s.downNow, (p : String × GroupEntry).2.issues = p.2.rows.length) →
    (∀ p ∈ s.recoveredNow, (p : String × GroupEntry).2.issues = 0) →
    (∀ p ∈ (l.foldl (fun t q => processRow q.1 t q.2) s).downNow,
        (p : String × GroupEntry).2.issues = p.2.rows.length)
  ∧ (∀ p ∈ (l.foldl (fun t q => processRow q.1 t q.2) s).recoveredNow,
        (p : String × GroupEntry).2.issues = 0) := by
  induction l with
  | nil =>
      intro s hdown hrec
      exact ⟨hdown, hrec⟩
  | cons q rest ih =>
      intro s hdown hrec
      rw [List.foldl_cons]
      have hstep := processRow_issues_inv q.1 s q.2 hdown hrec
      exact ih _ hstep.1 hstep.2

theorem sendGroupAlerts_issues_arg (tag : String) (m : GroupMap) (em : Email)
    (h : em ∈ sendGroupAlerts tag m) :
    ∃ p ∈ m, em.issuesShown = (p : String × GroupEntry).2.issues := by
  simp only [sendGroupAlerts, List.mem_filterMap] at h
  obtain ⟨p, hp, hsome⟩ := h
  refine ⟨p, hp, ?_⟩
  by_cases h1 : p.2.rows = []
  · simp [h1] at hsome
  · cases hm : dictGet GROUP_EMAIL_MAP p.1 with
    | none => simp [h1, hm] at hsome
    | some recips =>
        by_cases h2 : recips = []
        · simp [h1, hm, h2] at hsome
        · simp only [if_neg h1, hm, if_neg h2, Option.some.injEq] at hsome
          rw [← hsome]

/-- C9: in the detector's output every `downNow` entry's `issues` field
equals the number of rows in the entry, every `recoveredNow` entry's
`issues` field is `0` regardless of how many rows recovered, and hence the
recovery alert hands `build_report_html` an issue count of `0` for every
group it mails about. -/
theorem alert_issue_counts (results : GroupMap) (ns : NodeState) :
    (∀ gname e, (gname, e) ∈ (detectTransitions results ns).downNow →
        (e : GroupEntry).issues = e.rows.length)
  ∧ (∀ gname e, (gname, e) ∈ (detectTransitions results ns).recoveredNow →
        (e : GroupEntry).issues = 0)
  ∧ (∀ tag em, em ∈ sendGroupAlerts tag (detectTransitions results ns).recoveredNow →
        (em : Email).issuesShown = 0) := by
  have hinv := foldl_issues_inv (obsList results) ⟨ns, [], []⟩
    (by intro p hp; cases hp) (by intro p hp; cases hp)
  rw [← detectTransitions_eq_foldl] at hinv
  refine ⟨?_, ?_, ?_⟩
  · intro gname e he
    exact hinv.1 (gname, e) he
  · intro gname e he
    exact hinv.2 (gname, e) he
  · intro tag em hem
    obtain ⟨p, hp, heq⟩ := sendGroupAlerts_issues_arg tag _ em hem
    rw [heq]
    exact hinv.2 p hp

theorem alert_issue_counts_witness :
    ((⟨[⟨"a", "i", "default", false⟩], 0⟩ : GroupEntry).issues = 0)
  ∧ (⟨"✅ [RNC Cluster]",
        [("RNC Cluster", ⟨[⟨"a", "i", "default", false⟩], 0⟩)], 0,
        ["dhyann@iisc.ac.in", "naveennayaka@iisc.ac.in", "shrinivasam@iisc.ac.in"]⟩
      : Email).issuesShown = 0 :=
  ⟨(alert_issue_counts [("RNC Cluster", ⟨[⟨"a", "i", "default", false⟩], 0⟩)]
      [("RNC Cluster:a", true)]).2.1 "RNC Cluster" _ (by decide),
   (alert_issue_counts [("RNC Cluster", ⟨[⟨"a", "i", "default", false⟩], 0⟩)]
      [("RNC Cluster:a", true)]).2.2 "✅" _ (by decide)⟩

theorem foldl_keeps_presence (l : List (String × Row)) :
    ∀ (s : DetectState) (k : String), (dictGet s.nodeState k).isSome →
    (dictGet ((l.foldl (fun t q => processRow q.1 t q.2) s)).nodeState k).isSome := by
  induction l with
  | nil =>
      intro s k h
      exact h
  | cons q rest ih =>
      intro s k h
      rw [List.foldl_cons]
      apply ih
      rw [processRow_nodeState]
      exact dictGet_dictSet_isSome _ _ _ _ h

theorem foldl_untouched_key (l : List (String × Row)) :
    ∀ (s : DetectState) (k : String),
    (∀ q ∈ l, nodeKey q.1 q.2.name ≠ k) →
    dictGet ((l.foldl (fun t q => processRow q.1 t q.2) s)).nodeState k
      = dictGet s.nodeState k := by
  induction l with
  | nil =>
      intro s k _
      rfl
  | cons q rest ih =>
      intro s k h
      rw [List.foldl_cons,
        ih _ k (fun q2 hq2 => h q2 (List.mem_cons_of_mem _ hq2)),
        processRow_get_ne _ _ _ _ (h q (List.mem_cons_self _ _))]

theorem detect_last_writer (results : GroupMap) (ns : NodeState)
    (l1 : List (String × Row)) (q : String × Row) (l2 : List (String × Row))
    (hsplit : obsList results = l1 ++ q :: l2)
    (hlater : ∀ q2 ∈ l2, nodeKey q2.1 q2.2.name ≠ nodeKey q.1 q.2.name) :
    dictGet (detectTransitions results ns).nodeState (nodeKey q.1 q.2.name)
      = some q.2.is_issue := by
  rw [detectTransitions_eq_foldl, hsplit, List.foldl_append, List.foldl_cons,
    foldl_untouched_key l2 _ _ hlater]
  exact processRow_get_self _ _ _

/-- C6 (amended): after a run, every key present in the node-state map
beforehand is still present, and for every observed `(group, row)` after
which no later observation of the run shares its key, the map holds that
row's `is_issue` value — so for distinct keys, each row's own value; when
several rows share a key, the last one wins. -/
theorem state_map_preserved (results : GroupMap) (ns : NodeState) :
    (∀ k, (dictGet ns k).isSome →
        (dictGet (detectTransitions results ns).nodeState k).isSome)
  ∧ (∀ l1 q l2, obsList results = l1 ++ q :: l2 →
      (∀ q2 ∈ l2, nodeKey (q2 : String × Row).1 q2.2.name
          ≠ nodeKey (q : String × Row).1 q.2.name) →
      dictGet (detectTransitions results ns).nodeState (nodeKey q.1 q.2.name)
        = some q.2.is_issue) := by
  constructor
  · intro k h
    rw [detectTransitions_eq_foldl]
    exact foldl_keeps_presence _ _ _ h
  · intro l1 q l2 hsplit hlater
    exact detect_last_writer results ns l1 q l2 hsplit hlater

/-- C6, original wording, is false: with two rows of one group sharing a
name, the run observes a row with `is_issue = false` whose shared key ends
up holding `true`, not that row's own value. -/
theorem state_map_counterexample :
    ("G", (⟨"n", "i1", "login", false⟩ : Row)) ∈
      obsList [("G", ⟨[⟨"n", "i1", "login", false⟩, ⟨"n", "i2", "gpu", true⟩], 1⟩)]
  ∧ dictGet (detectTransitions
        [("G", ⟨[⟨"n", "i1", "login", false⟩, ⟨"n", "i2", "gpu", true⟩], 1⟩)]
        []).nodeState (nodeKey "G" "n")
      ≠ some false := by
  decide

theorem state_map_preserved_witness :
    (dictGet (detectTransitions [("G", ⟨[⟨"a", "i", "default", true⟩], 1⟩)]
        [("x", false)]).nodeState "x").isSome
  ∧ dictGet (detectTransitions [("G", ⟨[⟨"a", "i", "default", true⟩], 1⟩)]
        [("x", false)]).nodeState (nodeKey "G" "a")
      = some true :=
  ⟨(state_map_preserved [("G", ⟨[⟨"a", "i", "default", true⟩], 1⟩)]
      [("x", false)]).1 "x" (by decide),
   (state_map_preserved [("G", ⟨[⟨"a", "i", "default", true⟩], 1⟩)]
      [("x", false)]).2 [] ("G", ⟨"a", "i", "default", true⟩) []
      (by decide) (by decide)⟩

theorem foldl_fixed (l : List (String × Row)) :
    ∀ s : DetectState,
    (∀ q ∈ l, dictGet s.nodeState (nodeKey (q : String × Row).1 q.2.name)
        = some q.2.is_issue) →
    l.foldl (fun t q => processRow q.1 t q.2) s = s := by
  induction l with
  | nil =>
      intro s _
      rfl
  | cons q rest ih =>
      intro s h
      rw [List.foldl_cons, processRow_fixed q.1 s q.2 (h q (List.mem_cons_self _ _))]
      exact ih s (fun q2 hq2 => h q2 (List.mem_cons_of_mem _ hq2))

/-- C7 (amended): when no two observations of the run share a state key
(no two rows of one group have the same name), re-running the detector on
identical probe outcomes, starting from the node-state map the first run
produced, yields an empty `downNow` and an empty `recoveredNow`. -/
theorem idempotent_rerun (results : GroupMap) (ns : NodeState)
    (hkeys : ((obsList results).map
        (fun q => nodeKey (q : String × Row).1 q.2.name)).Nodup) :
    (detectTransitions results
        ((detectTransitions results ns).nodeState)).downNow = []
  ∧ (detectTransitions results
        ((detectTransitions results ns).nodeState)).recoveredNow = [] := by
  have hall : ∀ q ∈ obsList results,
      dictGet (detectTransitions results ns).nodeState
        (nodeKey (q : String × Row).1 q.2.name) = some q.2.is_issue := by
    intro q hq
    obtain ⟨l1, l2, hsplit⟩ := List.append_of_mem hq
    have hmap : ((obsList results).map
        (fun q => nodeKey (q : String × Row).1 q.2.name))
        = l1.map (fun q => nodeKey (q : String × Row).1 q.2.name)
          ++ nodeKey q.1 q.2.name
            :: l2.map (fun q => nodeKey (q : String × Row).1 q.2.name) := by
      rw [hsplit]
      simp
    rw [hmap] at hkeys
    have hnotin : nodeKey q.1 q.2.name ∉
        l2.map (fun q => nodeKey (q : String × Row).1 q.2.name) :=
      (List.nodup_cons.1 hkeys.of_append_right).1
    exact detect_last_writer results ns l1 q l2 hsplit
      (fun q2 hq2 he => hnotin (he ▸ List.mem_map_of_mem _ hq2))
  have hfix := foldl_fixed (obsList results)
    ⟨(detectTransitions results ns).nodeState, [], []⟩ hall
  rw [detectTransitions_eq_foldl, hfix]
  exact ⟨rfl, rfl⟩

/-- C7, original wording, is false: with two same-named rows in one group
(legal input — `run_checks_once` defaults missing names and never
deduplicates), the second identical run classifies transitions again, so
its `downNow` and `recoveredNow` are not both empty. -/
theorem idempotent_rerun_counterexample :
    ¬ ((detectTransitions
          [("G", ⟨[⟨"n", "i1", "login", false⟩, ⟨"n", "i2", "gpu", true⟩], 1⟩)]
          ((detectTransitions
            [("G", ⟨[⟨"n", "i1", "login", false⟩, ⟨"n", "i2", "gpu", true⟩], 1⟩)]
            []).nodeState)).downNow = []
      ∧ (detectTransitions
          [("G", ⟨[⟨"n", "i1", "login", false⟩, ⟨"n", "i2", "gpu", true⟩], 1⟩)]
          ((detectTransitions
            [("G", ⟨[⟨"n", "i1", "login", false⟩, ⟨"n", "i2", "gpu", true⟩], 1⟩)]
            []).nodeState)).recoveredNow = []) := by
  decide

theorem idempotent_rerun_witness :
    (detectTransitions
        [("G", ⟨[⟨"a", "i", "default", true⟩, ⟨"b", "j", "default", false⟩], 1⟩)]
        ((detectTransitions
          [("G", ⟨[⟨"a", "i", "default", true⟩, ⟨"b", "j", "default", false⟩], 1⟩)]
          []).nodeState)).downNow = []
  ∧ (detectTransitions
        [("G", ⟨[⟨"a", "i", "default", true⟩, ⟨"b", "j", "default", false⟩], 1⟩)]
        ((detectTransitions
          [("G", ⟨[⟨"a", "i", "default", true⟩, ⟨"b", "j", "default", false⟩], 1⟩)]
          []).nodeState)).recoveredNow = [] :=
  idempotent_rerun
    [("G", ⟨[⟨"a", "i", "default", true⟩, ⟨"b", "j", "default", false⟩], 1⟩)]
    [] (by decide)
